import Mathlib

/-!
# Verification of the CDES SDK core (parser + analyzer)

Shallow embedding of the TypeScript sources `src/cannabinoids.ts`,
`src/parser.ts` and `src/analyzer.ts` of the `cdes-sdk-typescript`
repository, together with theorems settling the specification claims
about them.

Modelling conventions:
* JavaScript numbers are modelled as `ℚ` wherever the source only adds,
  compares and multiplies them (parser, classifier, completeness scorer),
  and as `ℝ` where `Math.sqrt` / `Math.exp` are involved (distance and
  similarity in the analyzer).
* A JavaScript `Map<string, number>` is modelled as an insertion-ordered
  association list (`MMap`): `set` overwrites in place or appends,
  iteration follows insertion order, keys are unique by construction.
* `null` / missing cells of a Power BI value column are modelled as
  `Option ℚ` entries; `Number(x) || 0` is `Option.getD 0`.
* Category cells are modelled as the strings they are coerced to by
  `String(...)` in the source.
* The `parseMode` string union `"standard" | "cdes" | "unknown"` of the
  source is modelled by the inductive `ParseMode`; the specification
  refers to these three modes as `long`, `wide` and `unknown`
  respectively.
-/

/-! ## JavaScript-flavoured helpers -/

/-- Insertion-ordered association list modelling a JS `Map<string, number>`. -/
abbrev MMap := List (String × ℚ)

/-- `Map.get`: value of the first entry with the given key. -/
def mget (m : MMap) (k : String) : Option ℚ :=
  (m.find? (fun e => e.1 == k)).map (fun e => e.2)

/-- `Map.set`: overwrite the entry in place when the key exists, append otherwise. -/
def mset (m : MMap) (k : String) (v : ℚ) : MMap :=
  match m with
  | [] => [(k, v)]
  | e :: rest => if e.1 == k then (k, v) :: rest else e :: mset rest k v

/-- `Array.from(map.values()).reduce((sum, val) => sum + val, 0)`. -/
def sumValues (m : MMap) : ℚ :=
  m.foldl (fun sum e => sum + e.2) 0

/-- JS `a || fallback` on strings (`""` is falsy). -/
def jsOrStr (a : Option String) (fallback : String) : String :=
  match a with
  | some s => if s = "" then fallback else s
  | none => fallback

/-- Keys of an `MMap`, in iteration order. -/
def mkeys (m : MMap) : List String := m.map (fun e => e.1)

/-- First-occurrence deduplication, as performed by `new Set([...a, ...b])`. -/
def dedupFirst (seen : List String) : List String → List String
  | [] => []
  | x :: xs => if x ∈ seen then dedupFirst seen xs else x :: dedupFirst (x :: seen) xs

/-- `new Set([...xs, ...ys])` iterated in insertion order. -/
def jsSetUnion (xs ys : List String) : List String :=
  dedupFirst [] (xs ++ ys)

/-- Substring test on character lists (`haystack.includes(needle)` workhorse). -/
def isInfixL (needle : List Char) : List Char → Bool
  | [] => needle.isEmpty
  | c :: rest => needle.isPrefixOf (c :: rest) || isInfixL needle rest

/-- JS `big.includes(small)`. -/
def strContains (big small : String) : Bool :=
  isInfixL small.toList big.toList

/-! ## Embedding of `src/cannabinoids.ts` -/

/-- Keys of the `STANDARD_CANNABINOIDS` record, in declaration order (which is
the `Object.keys` / `for ... of Object.keys` iteration order for these
non-numeric string keys).  The record's payload (colors, therapeutic notes,
thresholds) is metadata outside the verified core and is not modelled. -/
def standardCannabinoidKeys : List String :=
  ["THC", "CBD", "CBN", "CBG", "CBC", "THCV", "CBDV", "CBDA", "THCA"]

/-- `normalizeCannabioidName`: uppercase, trim, strip `[\s\-_]`, strip `%`,
truncate to 5 characters.  `toUpperCase`/`trim`/`\s` are modelled on their
ASCII behaviour, which coincides with JS on the inputs of interest. -/
def normalizeCannabioidName (s : String) : String :=
  let upper := s.toList.map Char.toUpper
  let trimmed := ((upper.dropWhile Char.isWhitespace).reverse.dropWhile Char.isWhitespace).reverse
  let noSeparators := trimmed.filter (fun c => !(Char.isWhitespace c || c == '-' || c == '_'))
  let noPercent := noSeparators.filter (fun c => c != '%')
  String.mk (noPercent.take 5)

/-- The `for (const key of Object.keys(STANDARD_CANNABINOIDS))` scan of
`getCannabioidDisplayName`: first key `k` with
`k.includes(normalized) || normalized.includes(k)`, else the fallback. -/
def displayNameScan (normalized fallback : String) : List String → String
  | [] => fallback
  | k :: ks =>
    if strContains k normalized || strContains normalized k then k
    else displayNameScan normalized fallback ks

/-- `getCannabioidDisplayName` from `src/cannabinoids.ts`. -/
def getCannabioidDisplayName (name : String) : String :=
  displayNameScan (normalizeCannabioidName name) name standardCannabinoidKeys

/-! ## Embedding of `src/models.ts` (the shapes used by the parser) -/

/-- One entry of `PowerBICategoricalData.categories`: its `values` array.
Cells are modelled as the strings produced by the `String(...)` coercion
applied to them in `parser.ts` (the `source.displayName` metadata is unused
by the parser and not modelled). -/
structure PBICategory where
  values : List String
  deriving DecidableEq

/-- One entry of `PowerBICategoricalData.values`: its `values` array of
`number | null` cells (`none` models `null`). -/
structure PBIValueColumn where
  values : List (Option ℚ)
  deriving DecidableEq

/-- `PowerBICategoricalData`.  Both fields are `Option`al because
`parseDataView` defends against them being `undefined` at runtime
(`data?.categories`, `data.values && ...`). -/
structure PowerBICategoricalData where
  categories : Option (List PBICategory)
  values : Option (List PBIValueColumn)
  deriving DecidableEq

/-- `CannabinoidProfile` from `src/models.ts`.  The specification calls
`cannabinoids` the `measurements` mapping and `totalCannabinoids` the
`total`. -/
structure CannabinoidProfile where
  batchId : String
  batchName : String
  cannabinoids : MMap
  totalCannabinoids : ℚ
  deriving DecidableEq

/-- The `parseMode` union `"standard" | "cdes" | "unknown"` of the source.
The specification names these modes `long`, `wide` and `unknown`
respectively ("which structural interpretation succeeded"). -/
inductive ParseMode where
  | standard
  | cdes
  | unknown
  deriving DecidableEq

/-- `CDESParsedData` (the spec's `ParseResult`); the optional
`terpeneProfiles` field is never produced by the parser and not modelled. -/
structure CDESParsedData where
  profiles : List CannabinoidProfile
  parseMode : ParseMode
  recordsProcessed : ℕ
  deriving DecidableEq

/-! ## Embedding of `src/parser.ts` -/

/-- `Number(cell) || 0`: a `null` or out-of-range cell coerces to `0`. -/
def jsNum (cell : Option ℚ) : ℚ := cell.getD 0

/-- The loop state of both tabular parse functions: the insertion-ordered
`profiles : Map<string, Map<string, number>>` and
`profileNames : Map<string, string>`. -/
structure ParseState where
  profiles : List (String × MMap)
  names : List (String × String)

/-- `profiles.get(batchId)`. -/
def psGet (profiles : List (String × MMap)) (batchId : String) : Option MMap :=
  (profiles.find? (fun e => e.1 == batchId)).map (fun e => e.2)

/-- Replace the measurement map stored under `batchId` (models the in-place
mutation of the `Map` object returned by `profiles.get(batchId)!`). -/
def psModify (profiles : List (String × MMap)) (batchId : String)
    (f : MMap → MMap) : List (String × MMap) :=
  profiles.map (fun e => if e.1 == batchId then (e.1, f e.2) else e)

/-- The `if (!profiles.has(batchId)) { profiles.set(batchId, new Map());
profileNames.set(batchId, batchId); }` prologue of both row loops. -/
def psEnsure (st : ParseState) (batchId : String) : ParseState :=
  if (psGet st.profiles batchId).isSome then st
  else ⟨st.profiles ++ [(batchId, [])], st.names ++ [(batchId, batchId)]⟩

/-- One iteration of the `parseStandardStructure` row loop. -/
def stepStandard (batchIds cannabinoidNames : List String)
    (percentages : List (Option ℚ)) (st : ParseState) (i : ℕ) : ParseState :=
  let batchId := batchIds.getD i ""
  let cannabinoidName := cannabinoidNames.getD i ""
  let percentage := jsNum (percentages.getD i none)
  let st1 := psEnsure st batchId
  let displayName := getCannabioidDisplayName cannabinoidName
  if 0 < percentage then
    ⟨psModify st1.profiles batchId (fun m => mset m displayName percentage), st1.names⟩
  else st1

/-- The `for (const [batchId, cannabinoids] of profiles)` epilogue shared by
both tabular parse functions. -/
def finalizeProfiles (st : ParseState) : List CannabinoidProfile :=
  st.profiles.map (fun e =>
    { batchId := e.1
      batchName := jsOrStr ((st.names.find? (fun n => n.1 == e.1)).map (fun n => n.2)) e.1
      cannabinoids := e.2
      totalCannabinoids := sumValues e.2 })

/-- `parseStandardStructure`: categories[0] = batch ids, categories[1] =
cannabinoid labels, values[0] = percentages. -/
def parseStandardStructure (cats : List PBICategory) (vals : List PBIValueColumn) :
    CDESParsedData :=
  let batchIds := (cats.getD 0 ⟨[]⟩).values
  let cannabinoidNames := (cats.getD 1 ⟨[]⟩).values
  let percentages := (vals.getD 0 ⟨[]⟩).values
  let n := min batchIds.length cannabinoidNames.length
  let st := (List.range n).foldl (stepStandard batchIds cannabinoidNames percentages) ⟨[], []⟩
  { profiles := finalizeProfiles st
    parseMode := ParseMode.standard
    recordsProcessed := n }

/-- The `cdesColumns` positional compound list of `parseCDESStructure`. -/
def cdesColumns : List String :=
  ["THC", "CBD", "CBN", "CBG", "CBC", "THCV", "CBDV", "THCA", "CBDA"]

/-- Cell `(colIdx, i)` of the wide structure:
`Number((data.values[colIdx]?.values || [])[i]) || 0`. -/
def wideCell (vals : List PBIValueColumn) (colIdx i : ℕ) : ℚ :=
  jsNum (((vals.getD colIdx ⟨[]⟩).values).getD i none)

/-- One iteration of the inner `for (let colIdx = 0; ...)` loop of
`parseCDESStructure`: store column `colIdx`'s cell of row `i` when positive. -/
def cdesColUpdate (vals : List PBIValueColumn) (i : ℕ) (m : MMap) (colIdx : ℕ) : MMap :=
  let percentage := wideCell vals colIdx i
  if 0 < percentage then mset m (cdesColumns.getD colIdx "") percentage else m

/-- The whole inner column loop of `parseCDESStructure` applied to row `i`. -/
def wideRowUpdate (vals : List PBIValueColumn) (i : ℕ) (m : MMap) : MMap :=
  (List.range (min cdesColumns.length vals.length)).foldl (cdesColUpdate vals i) m

/-- One iteration of the `parseCDESStructure` row loop. -/
def stepCDES (batchIds : List String) (vals : List PBIValueColumn)
    (st : ParseState) (i : ℕ) : ParseState :=
  let batchId := batchIds.getD i ""
  let st1 := psEnsure st batchId
  ⟨psModify st1.profiles batchId (wideRowUpdate vals i), st1.names⟩

/-- `parseCDESStructure`: categories[0] = batch ids, value columns mapped
positionally onto `cdesColumns`. -/
def parseCDESStructure (cats : List PBICategory) (vals : List PBIValueColumn) :
    CDESParsedData :=
  let batchIds := (cats.getD 0 ⟨[]⟩).values
  let st := (List.range batchIds.length).foldl (stepCDES batchIds vals) ⟨[], []⟩
  { profiles := finalizeProfiles st
    parseMode := ParseMode.cdes
    recordsProcessed := batchIds.length }

/-- The `{ profiles: [], parseMode: "unknown", recordsProcessed: 0 }` result. -/
def unknownResult : CDESParsedData :=
  { profiles := [], parseMode := ParseMode.unknown, recordsProcessed := 0 }

/-- The standard-structure attempt of `parseDataView` (guard included):
`some r` exactly when the attempt runs and yields at least one profile. -/
def tryStandard (cats : List PBICategory) (vals? : Option (List PBIValueColumn)) :
    Option CDESParsedData :=
  match vals? with
  | some vals =>
    if 2 ≤ cats.length ∧ 0 < vals.length then
      let r := parseStandardStructure cats vals
      if 0 < r.profiles.length then some r else none
    else none
  | none => none

/-- The CDES-structure fallback of `parseDataView` (guard included). -/
def tryCDES (cats : List PBICategory) (vals? : Option (List PBIValueColumn)) :
    CDESParsedData :=
  match vals? with
  | some vals =>
    if 1 ≤ cats.length then
      let r := parseCDESStructure cats vals
      if 0 < r.profiles.length then r else unknownResult
    else unknownResult
  | none => unknownResult

/-- `CDESParser.parseDataView`.  The argument is `Option`al because the
source guards with `data?.categories` against a missing input. -/
def parseDataView (data : Option PowerBICategoricalData) : CDESParsedData :=
  match data with
  | none => unknownResult
  | some d =>
    match d.categories with
    | none => unknownResult
    | some cats =>
      if cats.length = 0 then unknownResult
      else
        match tryStandard cats d.values with
        | some r => r
        | none => tryCDES cats d.values

/-! ## Embedding of `CDESParser.parseBatchJSON` -/

/-- A runtime JavaScript value stored in a `Record<string, unknown>` field.
`undefined` is modelled by the absence of the key. -/
inductive JSVal where
  | num (q : ℚ)
  | str (s : String)
  | boolv (b : Bool)
  | nullv
  deriving DecidableEq

/-- A `Record<string, unknown>` batch record (keys unique, as in a JS object). -/
abbrev JSRecord := List (String × JSVal)

/-- `record[key]`: `none` models `undefined` (absent key). -/
def recGet (r : JSRecord) (k : String) : Option JSVal :=
  (r.find? (fun e => e.1 == k)).map (fun e => e.2)

/-- JS truthiness of a record value. -/
def jsTruthy : JSVal → Bool
  | .num q => q != 0
  | .str s => s != ""
  | .boolv b => b
  | .nullv => false

/-- JS `a || b` on (possibly undefined) record values. -/
def jsOrVal (a b : Option JSVal) : Option JSVal :=
  match a with
  | some v => if jsTruthy v then some v else b
  | none => b

/-- JS `String(v)`.  Number/boolean/null formatting is abstracted; every
claim only exercises the string case. -/
def jsValToString : JSVal → String
  | .str s => s
  | .num q => toString q
  | .boolv b => toString b
  | .nullv => "null"

/-- The `cdesFields` list declared inside `parseBatchJSON` (the source
repeats the nine codes in this order a second time). -/
def cdesFields : List String :=
  ["THC", "CBD", "CBN", "CBG", "CBC", "THCV", "CBDV", "THCA", "CBDA"]

/-- JS `String.prototype.toLowerCase` (ASCII behaviour, which coincides
with JS on the nine field names it is applied to). -/
def jsToLowerStr (s : String) : String :=
  String.mk (s.toList.map Char.toLower)

/-- One iteration of the `for (const field of cdesFields)` loop:
`const value = batch[field.toLowerCase()] || batch[field]`, stored when it
is a number `> 0`. -/
def batchFieldUpdate (batch : JSRecord) (m : MMap) (field : String) : MMap :=
  let value := jsOrVal (recGet batch (jsToLowerStr field)) (recGet batch field)
  match value with
  | some (.num q) => if 0 < q then mset m field q else m
  | _ => m

/-- `CDESParser.parseBatchJSON`. -/
def parseBatchJSON (batch : JSRecord) : CannabinoidProfile :=
  let batchId := jsValToString
    ((jsOrVal (recGet batch "id")
      (jsOrVal (recGet batch "batchId") (some (.str "unknown")))).getD (.str "unknown"))
  let cannabinoids := cdesFields.foldl (batchFieldUpdate batch) []
  { batchId := batchId
    batchName := jsValToString
      ((jsOrVal (recGet batch "name")
        (jsOrVal (recGet batch "strain") (some (.str batchId)))).getD (.str batchId))
    cannabinoids := cannabinoids
    totalCannabinoids := sumValues cannabinoids }

/-- `CDESParser.parseBatchesJSON`. -/
def parseBatchesJSON (batches : List JSRecord) : List CannabinoidProfile :=
  batches.map parseBatchJSON

/-! ## Embedding of `src/analyzer.ts` and `calculateEuclideanDistance` -/

/-- `calculateEuclideanDistance` from `src/cannabinoids.ts`: square root of
the sum of squared differences over the key union (`map.get(key) || 0`). -/
noncomputable def calculateEuclideanDistance (profile1 profile2 : MMap) : ℝ :=
  let allKeys := jsSetUnion (mkeys profile1) (mkeys profile2)
  let sumSquares : ℚ := allKeys.foldl
    (fun s key => s + ((mget profile1 key).getD 0 - (mget profile2 key).getD 0) ^ 2) 0
  Real.sqrt (sumSquares : ℝ)

/-- The similarity expression `Math.max(0, Math.min(100, 100 *
Math.exp(-distance / 10)))` that appears verbatim in both
`compareProfiles` and `findSimilarProfiles`. -/
noncomputable def similarityOfDistance (distance : ℝ) : ℝ :=
  max 0 (min 100 (100 * Real.exp (-distance / 10)))

/-- Per-compound difference entry of a `ComparisonResult`. -/
structure DiffEntry where
  val1 : ℚ
  val2 : ℚ
  delta : ℚ

/-- `ComparisonResult` from `src/analyzer.ts`. -/
structure ComparisonResult where
  profile1 : CannabinoidProfile
  profile2 : CannabinoidProfile
  distance : ℝ
  similarity : ℝ
  differences : List (String × DiffEntry)

/-- `CDESAnalyzer.compareProfiles`. -/
noncomputable def compareProfiles (profile1 profile2 : CannabinoidProfile) :
    ComparisonResult :=
  let distance := calculateEuclideanDistance profile1.cannabinoids profile2.cannabinoids
  let similarity := similarityOfDistance distance
  let allKeys := jsSetUnion (mkeys profile1.cannabinoids) (mkeys profile2.cannabinoids)
  let differences := allKeys.filterMap (fun key =>
    let val1 := (mget profile1.cannabinoids key).getD 0
    let val2 := (mget profile2.cannabinoids key).getD 0
    if val1 ≠ val2 then some (key, ⟨val1, val2, val2 - val1⟩) else none)
  { profile1 := profile1, profile2 := profile2
    distance := distance, similarity := similarity, differences := differences }

/-- The intermediate `{ profile, distance, similarity }` record built by the
`.map` stage of `findSimilarProfiles`. -/
structure SimEntry where
  profile : CannabinoidProfile
  distance : ℝ
  similarity : ℝ

/-- `SimilarityResult` from `src/analyzer.ts`. -/
structure SimilarityResult where
  profile : CannabinoidProfile
  distance : ℝ
  similarity : ℝ
  rank : ℕ

/-- The `.map((profile) => { ... })` stage of `findSimilarProfiles`. -/
noncomputable def annotateSim (targetProfile profile : CannabinoidProfile) : SimEntry :=
  let distance := calculateEuclideanDistance targetProfile.cannabinoids profile.cannabinoids
  ⟨profile, distance, similarityOfDistance distance⟩

/-- Stable descending insertion by `similarity`: the inserted element goes
in front of the first element whose similarity is `≤` its own, i.e. after
every strictly more similar element and before every tie. -/
noncomputable def insertBySim (x : SimEntry) : List SimEntry → List SimEntry
  | [] => [x]
  | y :: ys => if y.similarity ≤ x.similarity then x :: y :: ys else y :: insertBySim x ys

/-- Model of `.sort((a, b) => b.similarity - a.similarity)`.  ECMAScript
`Array.prototype.sort` is stable and, for a consistent comparator such as
this one, its output is the unique permutation that is sorted by the
comparator and keeps tied elements in input order; this stable insertion
sort computes exactly that permutation. -/
noncomputable def sortBySimDesc : List SimEntry → List SimEntry
  | [] => []
  | x :: xs => insertBySim x (sortBySimDesc xs)

/-- The `.map((result, index) => ({ ...result, rank: index + 1 }))` stage. -/
def assignRanks : ℕ → List SimEntry → List SimilarityResult
  | _, [] => []
  | n, r :: rs => ⟨r.profile, r.distance, r.similarity, n⟩ :: assignRanks (n + 1) rs

/-- `CDESAnalyzer.findSimilarProfiles`: map, filter (similarity at least
`minSimilarity`, batch id different from the target's), stable descending
sort, `slice(0, limit)`, rank assignment. -/
noncomputable def findSimilarProfiles (targetProfile : CannabinoidProfile)
    (allProfiles : List CannabinoidProfile) (limit : ℕ) (minSimilarity : ℝ) :
    List SimilarityResult :=
  let mapped := allProfiles.map (annotateSim targetProfile)
  let filtered := mapped.filter (fun result =>
    decide (minSimilarity ≤ result.similarity ∧ result.profile.batchId ≠ targetProfile.batchId))
  assignRanks 1 ((sortBySimDesc filtered).take limit)

/-- `findSimilarProfiles` with the source's default parameters
`limit = 5`, `minSimilarity = 50`. -/
noncomputable def findSimilarProfilesDefault (targetProfile : CannabinoidProfile)
    (allProfiles : List CannabinoidProfile) : List SimilarityResult :=
  findSimilarProfiles targetProfile allProfiles 5 50

/-- Result record of `scoreProfileCompleteness`. -/
structure CompletenessScore where
  score : ℚ
  coverage : ℚ
  message : String
  deriving DecidableEq

/-- `CDESAnalyzer.scoreProfileCompleteness`. -/
def scoreProfileCompleteness (profile : CannabinoidProfile) : CompletenessScore :=
  let detectedCount := profile.cannabinoids.length
  let maxCannabinoids : ℚ := 9
  let coverage := ((detectedCount : ℚ) / maxCannabinoids) * 100
  let score1 := coverage
  let score2 := if 7 ≤ detectedCount then score1 + 20 else score1
  let score3 := if 10 < profile.totalCannabinoids then score2 + 10 else score2
  { score := min 100 score3
    coverage := coverage
    message :=
      if coverage < 30 then "Incomplete profile - limited cannabinoid data"
      else if coverage < 60 then "Partial profile - some cannabinoid data"
      else if coverage < 90 then "Good profile - most cannabinoids detected"
      else "Complete profile - all major cannabinoids detected" }

/-- JS `Number.prototype.toFixed(1)`, modelled as round-half-up to one
decimal digit (the classifier only formats positive values with it). -/
def toFixed1 (q : ℚ) : String :=
  let n : ℤ := round (q * 10)
  let ip : ℤ := n / 10
  let fp : ℕ := (n % 10).natAbs
  s!"{ip}.{fp}"

/-- Result record of `classifyStrain`.  The `ratio` field of the source is
named `ratioText` here. -/
structure StrainClassification where
  dominance : String
  thcContent : String
  cbdContent : String
  ratioText : String
  deriving DecidableEq

/-- `CDESAnalyzer.classifyStrain`.  The source's `type` field is
`dominance` here (`type` is a keyword in Lean). -/
def classifyStrain (profile : CannabinoidProfile) : StrainClassification :=
  let thc := (mget profile.cannabinoids "THC").getD 0
  let cbd := (mget profile.cannabinoids "CBD").getD 0
  { dominance :=
      if thc > cbd * 2 then "THC-Dominant"
      else if cbd > thc * 2 then "CBD-Dominant"
      else if thc > 0 ∨ cbd > 0 then "Balanced"
      else "Unknown"
    thcContent :=
      if thc > 20 then "High"
      else if thc > 10 then "Moderate"
      else if thc > 1 / 2 then "Low"
      else "Trace"
    cbdContent :=
      if cbd > 15 then "High"
      else if cbd > 7 then "Moderate"
      else if cbd > 1 / 2 then "Low"
      else "Trace"
    ratioText :=
      if thc > 0 ∧ cbd > 0 then
        let ratioParts := max thc cbd / min thc cbd
        if thc > cbd then toFixed1 ratioParts ++ ":1 THC:CBD"
        else toFixed1 ratioParts ++ ":1 CBD:THC"
      else if thc > 0 then toFixed1 thc ++ "% THC"
      else if cbd > 0 then toFixed1 cbd ++ "% CBD"
      else "N/A" }

/-! ## Specification-side reference definitions

These definitions transcribe the *specification's* wording (not the
source); the refinement claims compare them with the embedded code. -/

/-- The claim's normalization: "uppercase, trim, strip
whitespace/hyphen/underscore characters, strip '%' characters, truncate to
5 characters". -/
def normalizeSpec (s : String) : String :=
  let upper := s.toList.map Char.toUpper
  let trimmed := ((upper.dropWhile Char.isWhitespace).reverse.dropWhile Char.isWhitespace).reverse
  let noSeparators := trimmed.filter (fun c => !(Char.isWhitespace c || c == '-' || c == '_'))
  let noPercent := noSeparators.filter (fun c => c != '%')
  String.mk (noPercent.take 5)

/-- The claim's fixed 9-entry registry, in registry iteration order. -/
def registryScanOrder : List String :=
  ["THC", "CBD", "CBN", "CBG", "CBC", "THCV", "CBDV", "CBDA", "THCA"]

/-- The claim's reference name-resolution algorithm: normalize, scan the
registry in order for the first code `K` with `K` a substring of the
normalized label or vice versa, else return the original label unchanged. -/
def resolveCanonicalNameSpec (rawLabel : String) : String :=
  let normalized := normalizeSpec rawLabel
  match registryScanOrder.find?
      (fun k => strContains k normalized || strContains normalized k) with
  | some k => k
  | none => rawLabel

/-- The claim's completeness-scoring algorithm: `coverage = keys/9*100`,
`score = coverage + 20·[keys ≥ 7] + 10·[total > 10]` clamped to 100, and
the four exact message strings bucketed by coverage. -/
def scoreCompletenessSpec (profile : CannabinoidProfile) : CompletenessScore :=
  let keyCount := profile.cannabinoids.length
  let coverage := ((keyCount : ℚ) / 9) * 100
  { score := min 100 (coverage + (if 7 ≤ keyCount then 20 else 0)
      + (if 10 < profile.totalCannabinoids then 10 else 0))
    coverage := coverage
    message :=
      if coverage < 30 then "Incomplete profile - limited cannabinoid data"
      else if coverage < 60 then "Partial profile - some cannabinoid data"
      else if coverage < 90 then "Good profile - most cannabinoids detected"
      else "Complete profile - all major cannabinoids detected" }

/-- The claim's ranking algorithm: keep exactly the candidates whose
`batchId` differs from the target's and whose similarity is not below
`minSimilarity`, stable-sort them by similarity descending, truncate to
`limit`, and rank from 1. -/
noncomputable def findSimilarSpec (targetProfile : CannabinoidProfile)
    (candidates : List CannabinoidProfile) (limit : ℕ) (minSimilarity : ℝ) :
    List SimilarityResult :=
  let kept := candidates.filter (fun p =>
    decide (p.batchId ≠ targetProfile.batchId ∧
      minSimilarity ≤ (annotateSim targetProfile p).similarity))
  assignRanks 1 ((sortBySimDesc (kept.map (annotateSim targetProfile))).take limit)

/-! ## Helper lemmas -/

theorem displayNameScan_eq_find? (normalized fallback : String) (ks : List String) :
    displayNameScan normalized fallback ks
      = (ks.find? (fun k => strContains k normalized || strContains normalized k)).getD
          fallback := by
  induction ks with
  | nil => rfl
  | cons k ks ih =>
    by_cases h : (strContains k normalized || strContains normalized k) = true
    · simp [displayNameScan, List.find?, h]
    · simp only [Bool.not_eq_true] at h
      simp [displayNameScan, List.find?, h, ih]

theorem mget_cons (e : String × ℚ) (rest : MMap) (k : String) :
    mget (e :: rest) k = if e.1 = k then some e.2 else mget rest k := by
  by_cases h : e.1 = k
  · simp [mget, List.find?, h]
  · have hb : (e.1 == k) = false := beq_eq_false_iff_ne.mpr h
    simp [mget, List.find?, hb, h]

theorem mset_cons (e : String × ℚ) (rest : MMap) (k : String) (v : ℚ) :
    mset (e :: rest) k v = if e.1 = k then (k, v) :: rest else e :: mset rest k v := by
  by_cases h : e.1 = k <;> simp [mset, h]

theorem mget_mset_self (m : MMap) (k : String) (v : ℚ) :
    mget (mset m k v) k = some v := by
  induction m with
  | nil => simp [mset, mget_cons]
  | cons e rest ih =>
    rw [mset_cons]
    by_cases h : e.1 = k
    · simp [h, mget_cons]
    · simp [h, mget_cons, ih]

theorem mget_mset_ne (m : MMap) (k k' : String) (v : ℚ) (h : k' ≠ k) :
    mget (mset m k v) k' = mget m k' := by
  have hne : ¬ k = k' := fun hh => h hh.symm
  induction m with
  | nil =>
    show mget [(k, v)] k' = mget [] k'
    rw [mget_cons]
    simp [hne, mget, List.find?]
  | cons e rest ih =>
    rw [mset_cons]
    by_cases he : e.1 = k
    · rw [if_pos he, mget_cons, mget_cons, he, if_neg hne, if_neg hne]
    · rw [if_neg he, mget_cons, mget_cons, ih]

/-- Every profile emitted by the shared epilogue of the two tabular parse
functions has its `totalCannabinoids` recomputed as the sum of its
measurement values. -/
theorem finalizeProfiles_total (st : ParseState) :
    ∀ p ∈ finalizeProfiles st, p.totalCannabinoids = sumValues p.cannabinoids := by
  intro p hp
  simp only [finalizeProfiles, List.mem_map] at hp
  obtain ⟨e, _, rfl⟩ := hp
  rfl

/-- `parseDataView` returns the unknown result, an accepted (non-empty)
standard parse, or an accepted (non-empty) CDES parse. -/
theorem parseDataView_cases (data : Option PowerBICategoricalData) :
    parseDataView data = unknownResult
    ∨ (∃ cats vals, parseDataView data = parseStandardStructure cats vals
        ∧ 0 < (parseStandardStructure cats vals).profiles.length)
    ∨ (∃ cats vals, parseDataView data = parseCDESStructure cats vals
        ∧ 0 < (parseCDESStructure cats vals).profiles.length) := by
  match data with
  | none => exact Or.inl rfl
  | some d =>
    match hc : d.categories with
    | none => simp [parseDataView, hc]
    | some cats =>
      by_cases h0 : cats.length = 0
      · simp [parseDataView, hc, h0]
      · simp only [parseDataView, hc, h0, if_false]
        match hs : tryStandard cats d.values with
        | some r =>
          match hv : d.values with
          | none => simp [tryStandard, hv] at hs
          | some vals =>
            simp only [tryStandard, hv] at hs
            by_cases hg : 2 ≤ cats.length ∧ 0 < vals.length
            · simp only [hg, if_true] at hs
              by_cases hp : 0 < (parseStandardStructure cats vals).profiles.length
              · simp only [hp, if_true, Option.some.injEq] at hs
                exact Or.inr (Or.inl ⟨cats, vals, hs ▸ rfl, hp⟩)
              · simp [hp] at hs
            · simp [hg] at hs
        | none =>
          match hv : d.values with
          | none => simp [tryCDES, hv]
          | some vals =>
            simp only [tryCDES, hv]
            have h1 : 1 ≤ cats.length := Nat.one_le_iff_ne_zero.mpr h0
            simp only [h1, if_true]
            by_cases hp : 0 < (parseCDESStructure cats vals).profiles.length
            · exact Or.inr (Or.inr ⟨cats, vals, by simp [hp], hp⟩)
            · simp [hp]

theorem getD_mem_take (l : List String) (j t : ℕ) (hj : j < t) (ht : t ≤ l.length) :
    l.getD j "" ∈ l.take t := by
  have hjl : j < l.length := lt_of_lt_of_le hj ht
  rw [List.getD_eq_getElem l "" hjl]
  exact List.mem_take_iff_getElem.mpr ⟨j, by omega, rfl⟩

theorem getD_not_mem_take_of_nodup :
    ∀ (l : List String) (n : ℕ), l.Nodup → n < l.length → l.getD n "" ∉ l.take n := by
  intro l
  induction l with
  | nil => intro n _ hn; simp at hn
  | cons x xs ih =>
    intro n hnd hn
    match n with
    | 0 => simp
    | Nat.succ t =>
      have hxs : xs.Nodup := (List.nodup_cons.mp hnd).2
      have hx : x ∉ xs := (List.nodup_cons.mp hnd).1
      have htl : t < xs.length := by simpa using hn
      simp only [List.getD_cons_succ, List.take_succ_cons, List.mem_cons, not_or]
      constructor
      · intro hEq
        apply hx
        rw [← hEq, List.getD_eq_getElem xs "" htl]
        exact List.getElem_mem htl
      · exact ih t hxs htl

theorem foldl_range_succ {β : Type} (f : β → ℕ → β) (b : β) (n : ℕ) :
    (List.range (n + 1)).foldl f b = f ((List.range n).foldl f b) n := by
  rw [List.range_succ, List.foldl_append]
  rfl

/-- Keys outside the first `n` positional compound codes are untouched by
the first `n` column updates of a wide-structure row. -/
theorem wideFold_mget_not_mem (vals : List PBIValueColumn) (i : ℕ) :
    ∀ (n : ℕ) (m : MMap) (k : String), n ≤ cdesColumns.length →
      k ∉ cdesColumns.take n →
      mget ((List.range n).foldl (cdesColUpdate vals i) m) k = mget m k := by
  intro n
  induction n with
  | zero => intro m k _ _; rfl
  | succ t ih =>
    intro m k hn hk
    have htle : t ≤ cdesColumns.length := Nat.le_of_succ_le hn
    have htlt : t < cdesColumns.length := Nat.lt_of_succ_le hn
    have hk_take : k ∉ cdesColumns.take t := by
      intro hmem
      have hsub : cdesColumns.take t = (cdesColumns.take (t + 1)).take t := by
        rw [List.take_take]
        congr 1
        omega
      rw [hsub] at hmem
      exact hk (List.take_subset _ _ hmem)
    have hk_t : k ≠ cdesColumns.getD t "" := by
      intro hEq
      exact hk (hEq ▸ getD_mem_take cdesColumns t (t + 1) (Nat.lt_succ_self t) hn)
    rw [foldl_range_succ]
    unfold cdesColUpdate
    by_cases hpos : 0 < wideCell vals t i
    · rw [if_pos hpos, mget_mset_ne _ _ _ _ hk_t]
      exact ih m k htle hk_take
    · rw [if_neg hpos]
      exact ih m k htle hk_take

/-- After the first `n` column updates of a wide-structure row, positional
code `j < n` holds column `j`'s cell when that cell is positive, and is
otherwise left as it was. -/
theorem wideFold_mget_at (vals : List PBIValueColumn) (i : ℕ) :
    ∀ (n : ℕ) (m : MMap) (j : ℕ), n ≤ cdesColumns.length → j < n →
      mget ((List.range n).foldl (cdesColUpdate vals i) m) (cdesColumns.getD j "")
        = if 0 < wideCell vals j i then some (wideCell vals j i)
          else mget m (cdesColumns.getD j "") := by
  intro n
  induction n with
  | zero => intro m j _ hj; omega
  | succ t ih =>
    intro m j hn hj
    have htle : t ≤ cdesColumns.length := Nat.le_of_succ_le hn
    have hnodup : cdesColumns.Nodup := by decide
    rw [foldl_range_succ]
    by_cases hjt : j = t
    · subst hjt
      have hnm : cdesColumns.getD j "" ∉ cdesColumns.take j :=
        getD_not_mem_take_of_nodup cdesColumns j hnodup (Nat.lt_of_succ_le hn)
      unfold cdesColUpdate
      by_cases hpos : 0 < wideCell vals j i
      · rw [if_pos hpos, mget_mset_self, if_pos hpos]
      · rw [if_neg hpos, if_neg hpos]
        exact wideFold_mget_not_mem vals i j m _ htle hnm
    · have hjt' : j < t := by omega
      have hne : cdesColumns.getD j "" ≠ cdesColumns.getD t "" := by
        intro hEq
        apply getD_not_mem_take_of_nodup cdesColumns t hnodup (Nat.lt_of_succ_le hn)
        exact hEq ▸ getD_mem_take cdesColumns j t hjt' htle
      unfold cdesColUpdate
      by_cases hpos : 0 < wideCell vals t i
      · rw [if_pos hpos, mget_mset_ne _ _ _ _ hne]
        exact ih m j htle hjt'
      · rw [if_neg hpos]
        exact ih m j htle hjt'

/-- The similarity-descending order used below. -/
def simDescRel (a b : SimEntry) : Prop := b.similarity ≤ a.similarity

theorem mem_insertBySim (x : SimEntry) (l : List SimEntry) (z : SimEntry)
    (hz : z ∈ insertBySim x l) : z = x ∨ z ∈ l := by
  induction l with
  | nil => simpa [insertBySim] using hz
  | cons y ys ih =>
    unfold insertBySim at hz
    by_cases hle : y.similarity ≤ x.similarity
    · rw [if_pos hle] at hz
      rcases List.mem_cons.mp hz with h | h
      · exact Or.inl h
      · exact Or.inr h
    · rw [if_neg hle] at hz
      rcases List.mem_cons.mp hz with h | h
      · exact Or.inr (h ▸ List.mem_cons_self y ys)
      · rcases ih h with h2 | h2
        · exact Or.inl h2
        · exact Or.inr (List.mem_cons_of_mem y h2)

theorem insertBySim_pairwise (x : SimEntry) (l : List SimEntry)
    (h : l.Pairwise simDescRel) : (insertBySim x l).Pairwise simDescRel := by
  induction l with
  | nil => simp [insertBySim, List.pairwise_singleton]
  | cons y ys ih =>
    have hhead := (List.pairwise_cons.mp h).1
    have htail := (List.pairwise_cons.mp h).2
    unfold insertBySim
    by_cases hle : y.similarity ≤ x.similarity
    · rw [if_pos hle]
      refine List.pairwise_cons.mpr ⟨?_, h⟩
      intro z hz
      rcases List.mem_cons.mp hz with hzy | hzys
      · exact hzy ▸ hle
      · exact le_trans (hhead z hzys) hle
    · rw [if_neg hle]
      refine List.pairwise_cons.mpr ⟨?_, ih htail⟩
      intro z hz
      rcases mem_insertBySim x ys z hz with hzx | hzys
      · exact hzx ▸ le_of_not_le hle
      · exact hhead z hzys

theorem sortBySimDesc_pairwise (l : List SimEntry) :
    (sortBySimDesc l).Pairwise simDescRel := by
  induction l with
  | nil => simp [sortBySimDesc]
  | cons x xs ih => exact insertBySim_pairwise x (sortBySimDesc xs) ih

theorem insertBySim_filter_simEq (x : SimEntry) (l : List SimEntry) (s : ℝ) :
    (insertBySim x l).filter (fun r => decide (r.similarity = s))
      = (if x.similarity = s then [x] else [])
        ++ l.filter (fun r => decide (r.similarity = s)) := by
  induction l with
  | nil =>
    by_cases hx : x.similarity = s <;> simp [insertBySim, List.filter, hx]
  | cons y ys ih =>
    unfold insertBySim
    by_cases hle : y.similarity ≤ x.similarity
    · rw [if_pos hle]
      by_cases hx : x.similarity = s <;> simp [List.filter_cons, hx]
    · rw [if_neg hle]
      have hlt : x.similarity < y.similarity := lt_of_not_le hle
      by_cases hy : y.similarity = s
      · have hx : ¬ x.similarity = s := by
          intro hxs
          rw [hxs, hy] at hlt
          exact lt_irrefl s hlt
        simp [List.filter_cons, hy, hx, ih]
      · by_cases hx : x.similarity = s <;> simp [List.filter_cons, hy, hx, ih]

/-- Stability of the modelled JS sort: for every similarity value, the tied
elements appear in the sorted list exactly in their input order. -/
theorem sortBySimDesc_filter_simEq (l : List SimEntry) (s : ℝ) :
    (sortBySimDesc l).filter (fun r => decide (r.similarity = s))
      = l.filter (fun r => decide (r.similarity = s)) := by
  induction l with
  | nil => rfl
  | cons x xs ih =>
    unfold sortBySimDesc
    rw [insertBySim_filter_simEq, ih]
    by_cases hx : x.similarity = s <;> simp [List.filter_cons, hx]

theorem assignRanks_length (n : ℕ) (l : List SimEntry) :
    (assignRanks n l).length = l.length := by
  induction l generalizing n with
  | nil => rfl
  | cons r rs ih => simp [assignRanks, ih]

theorem assignRanks_map_rank (n : ℕ) (l : List SimEntry) :
    (assignRanks n l).map SimilarityResult.rank = List.range' n l.length := by
  induction l generalizing n with
  | nil => rfl
  | cons r rs ih => simp [assignRanks, List.range'_succ, ih]

theorem assignRanks_map_sim (n : ℕ) (l : List SimEntry) :
    (assignRanks n l).map SimilarityResult.similarity = l.map SimEntry.similarity := by
  induction l generalizing n with
  | nil => rfl
  | cons r rs ih => simp [assignRanks, ih]

theorem filter_comm_map (f : CannabinoidProfile → SimEntry) (p : SimEntry → Bool)
    (l : List CannabinoidProfile) :
    (l.map f).filter p = (l.filter (fun a => p (f a))).map f := by
  rw [List.filter_map]
  rfl

theorem findSimilarProfiles_eq_spec (targetProfile : CannabinoidProfile)
    (candidates : List CannabinoidProfile) (limit : ℕ) (minSimilarity : ℝ) :
    findSimilarProfiles targetProfile candidates limit minSimilarity
      = findSimilarSpec targetProfile candidates limit minSimilarity := by
  simp only [findSimilarProfiles, findSimilarSpec]
  rw [filter_comm_map]
  have hpred : (fun p : CannabinoidProfile =>
      decide (minSimilarity ≤ (annotateSim targetProfile p).similarity ∧
        (annotateSim targetProfile p).profile.batchId ≠ targetProfile.batchId))
      = (fun p : CannabinoidProfile =>
      decide (p.batchId ≠ targetProfile.batchId ∧
        minSimilarity ≤ (annotateSim targetProfile p).similarity)) := by
    funext p
    exact decide_eq_decide.mpr and_comm
  rw [hpred]

/-- On nonnegative distances both clamps of the similarity formula are
inert. -/
theorem similarityOfDistance_eq_exp (d : ℝ) (hd : 0 ≤ d) :
    similarityOfDistance d = 100 * Real.exp (-d / 10) := by
  unfold similarityOfDistance
  have hexp1 : Real.exp (-d / 10) ≤ 1 := Real.exp_le_one_iff.mpr (by linarith)
  have hpos : (0 : ℝ) < 100 * Real.exp (-d / 10) := by positivity
  rw [min_eq_right (by linarith), max_eq_right (le_of_lt hpos)]

/-! ## Claim theorems -/

/-- C1: for every Profile produced by any parse operation (long-form
tabular parse, wide-form tabular parse, or record parse), the profile's
total (`totalCannabinoids`) equals the sum of the values in its
measurements mapping (`cannabinoids`) at the moment the profile is
produced. -/
theorem parsed_profile_total_is_sum :
    (∀ (data : Option PowerBICategoricalData),
      ∀ p ∈ (parseDataView data).profiles,
        p.totalCannabinoids = sumValues p.cannabinoids)
    ∧ (∀ batch : JSRecord,
        (parseBatchJSON batch).totalCannabinoids
          = sumValues (parseBatchJSON batch).cannabinoids)
    ∧ (∀ batches : List JSRecord,
        ∀ p ∈ parseBatchesJSON batches,
          p.totalCannabinoids = sumValues p.cannabinoids) := by
  refine ⟨?_, ?_, ?_⟩
  · intro data p hp
    rcases parseDataView_cases data with h | ⟨cats, vals, h, _⟩ | ⟨cats, vals, h, _⟩
    · rw [h] at hp
      simp [unknownResult] at hp
    · rw [h] at hp
      simp only [parseStandardStructure] at hp
      exact finalizeProfiles_total _ p hp
    · rw [h] at hp
      simp only [parseCDESStructure] at hp
      exact finalizeProfiles_total _ p hp
  · intro batch
    rfl
  · intro batches p hp
    simp only [parseBatchesJSON, List.mem_map] at hp
    obtain ⟨r, _, rfl⟩ := hp
    rfl

/-- Witness for C1: a concrete long-form parse whose profile (with an empty
measurement map, since the only percentage is 0) satisfies the invariant. -/
theorem parsed_profile_total_is_sum_witness :
    ({ batchId := "b1", batchName := "b1", cannabinoids := [],
       totalCannabinoids := 0 } : CannabinoidProfile)
      ∈ (parseDataView (some
          { categories := some [⟨["b1"]⟩, ⟨["THC"]⟩]
            values := some [⟨[some 0]⟩] })).profiles
    ∧ ({ batchId := "b1", batchName := "b1", cannabinoids := [],
         totalCannabinoids := 0 } : CannabinoidProfile).totalCannabinoids
        = sumValues
            ({ batchId := "b1", batchName := "b1", cannabinoids := [],
               totalCannabinoids := 0 } : CannabinoidProfile).cannabinoids :=
  ⟨by decide,
   parsed_profile_total_is_sum.1
     (some { categories := some [⟨["b1"]⟩, ⟨["THC"]⟩], values := some [⟨[some 0]⟩] })
     _ (by decide)⟩

/-- C2: for every raw label, `getCannabioidDisplayName` returns exactly the
result of the specification's reference algorithm (normalize, scan the
9-entry registry in order with the bidirectional substring test, fall back
to the original label). -/
theorem name_resolution_matches_reference :
    ∀ rawLabel : String,
      getCannabioidDisplayName rawLabel = resolveCanonicalNameSpec rawLabel := by
  intro rawLabel
  show displayNameScan (normalizeCannabioidName rawLabel) rawLabel standardCannabinoidKeys = _
  rw [displayNameScan_eq_find?]
  simp only [resolveCanonicalNameSpec]
  rw [show registryScanOrder = standardCannabinoidKeys from rfl,
    show normalizeSpec = normalizeCannabioidName from rfl]
  cases List.find? (fun k => strContains k (normalizeCannabioidName rawLabel)
      || strContains (normalizeCannabioidName rawLabel) k) standardCannabinoidKeys with
  | none => rfl
  | some k => rfl

/-- C3 counterexample: at measurements THC = 20, CBD = 10 the classifier
does *not* return "THC-Dominant" (the `thc > 2*cbd` comparison is strict
and 20 = 2·10). -/
theorem classify_at_boundary_not_dominant :
    (classifyStrain { batchId := "b1", batchName := "b1"
                      cannabinoids := [("THC", 20), ("CBD", 10)]
                      totalCannabinoids := 30 }).dominance ≠ "THC-Dominant" := by
  have h1 : mget [("THC", 20), ("CBD", 10)] "THC" = some 20 := by decide
  have h2 : mget [("THC", 20), ("CBD", 10)] "CBD" = some 10 := by decide
  simp only [classifyStrain, h1, h2, Option.getD_some]
  norm_num
  decide

/-- C3 amended: a profile whose measurements give THC = 20 and CBD = 10 is
classified with dominance type "Balanced" (the boundary `thc = 2*cbd` is
not dominant). -/
theorem classify_at_boundary_balanced (p : CannabinoidProfile)
    (h1 : mget p.cannabinoids "THC" = some 20)
    (h2 : mget p.cannabinoids "CBD" = some 10) :
    (classifyStrain p).dominance = "Balanced" := by
  simp only [classifyStrain, h1, h2, Option.getD_some]
  norm_num

/-- Witness for the amended C3. -/
theorem classify_at_boundary_balanced_witness :
    mget ([("THC", 20), ("CBD", 10)] : MMap) "THC" = some 20
    ∧ mget ([("THC", 20), ("CBD", 10)] : MMap) "CBD" = some 10
    ∧ (classifyStrain
        { batchId := "b1", batchName := "b1"
          cannabinoids := [("THC", 20), ("CBD", 10)]
          totalCannabinoids := 30 }).dominance = "Balanced" :=
  ⟨by decide, by decide,
   classify_at_boundary_balanced _ (by decide) (by decide)⟩

/-- C4: the long-form parse of batch column ["b1","b1","b1"], label column
["THC","CBD","CBN"] and value column [20,15,2] yields exactly one profile
with measurements THC 20, CBD 15, CBN 2 and total 37, in the long-form
mode (the source's `"standard"` parse mode) with 3 records processed. -/
theorem long_form_example_parse :
    parseDataView (some
      { categories := some [⟨["b1", "b1", "b1"]⟩, ⟨["THC", "CBD", "CBN"]⟩]
        values := some [⟨[some 20, some 15, some 2]⟩] })
    = { profiles := [{ batchId := "b1", batchName := "b1"
                       cannabinoids := [("THC", 20), ("CBD", 15), ("CBN", 2)]
                       totalCannabinoids := 37 }]
        parseMode := ParseMode.standard
        recordsProcessed := 3 } := by
  have h : parseDataView (some
      { categories := some [⟨["b1", "b1", "b1"]⟩, ⟨["THC", "CBD", "CBN"]⟩]
        values := some [⟨[some 20, some 15, some 2]⟩] })
    = { profiles := [{ batchId := "b1", batchName := "b1"
                       cannabinoids := [("THC", 20), ("CBD", 15), ("CBN", 2)]
                       totalCannabinoids := sumValues [("THC", 20), ("CBD", 15), ("CBN", 2)] }]
        parseMode := ParseMode.standard
        recordsProcessed := 3 } := rfl
  rw [h]
  norm_num [sumValues]

/-- C5: in the wide-form parse, a row stores value column `j` under
position `j` of the fixed list [THC, CBD, CBN, CBG, CBC, THCV, CBDV, THCA,
CBDA], up to the shorter of the two lengths, and only when the value is
positive; keys outside that mapped prefix are untouched.  Concretely, one
batch row with value columns [20,15,2,1] yields measurements THC 20,
CBD 15, CBN 2, CBG 1 in the wide-form mode (the source's `"cdes"` parse
mode). -/
theorem wide_positional_mapping :
    (∀ (vals : List PBIValueColumn) (i : ℕ) (m : MMap) (j : ℕ),
      j < min cdesColumns.length vals.length →
      mget (wideRowUpdate vals i m) (cdesColumns.getD j "")
        = if 0 < wideCell vals j i then some (wideCell vals j i)
          else mget m (cdesColumns.getD j ""))
    ∧ (∀ (vals : List PBIValueColumn) (i : ℕ) (m : MMap) (k : String),
      k ∉ cdesColumns.take (min cdesColumns.length vals.length) →
      mget (wideRowUpdate vals i m) k = mget m k)
    ∧ parseDataView (some
        { categories := some [⟨["b1"]⟩]
          values := some [⟨[some 20]⟩, ⟨[some 15]⟩, ⟨[some 2]⟩, ⟨[some 1]⟩] })
      = { profiles := [{ batchId := "b1", batchName := "b1"
                         cannabinoids := [("THC", 20), ("CBD", 15), ("CBN", 2), ("CBG", 1)]
                         totalCannabinoids := 38 }]
          parseMode := ParseMode.cdes
          recordsProcessed := 1 } := by
  refine ⟨?_, ?_, ?_⟩
  · intro vals i m j hj
    exact wideFold_mget_at vals i _ m j (min_le_left _ _) hj
  · intro vals i m k hk
    exact wideFold_mget_not_mem vals i _ m k (min_le_left _ _) hk
  · have h : parseDataView (some
        { categories := some [⟨["b1"]⟩]
          values := some [⟨[some 20]⟩, ⟨[some 15]⟩, ⟨[some 2]⟩, ⟨[some 1]⟩] })
      = { profiles := [{ batchId := "b1", batchName := "b1"
                         cannabinoids := [("THC", 20), ("CBD", 15), ("CBN", 2), ("CBG", 1)]
                         totalCannabinoids := sumValues [("THC", 20), ("CBD", 15), ("CBN", 2), ("CBG", 1)] }]
          parseMode := ParseMode.cdes
          recordsProcessed := 1 } := rfl
    rw [h]
    norm_num [sumValues]

/-- Witness for C5: the positional-update characterizations applied to a
one-column, one-row wide structure. -/
theorem wide_positional_mapping_witness :
    (0 : ℕ) < min cdesColumns.length 1
    ∧ mget (wideRowUpdate [⟨[some 5]⟩] 0 []) (cdesColumns.getD 0 "") = some 5
    ∧ "XYZ" ∉ cdesColumns.take (min cdesColumns.length 1)
    ∧ mget (wideRowUpdate [⟨[some 5]⟩] 0 []) "XYZ" = mget ([] : MMap) "XYZ" := by
  refine ⟨by decide, ?_, by decide, ?_⟩
  · have hc : wideCell [⟨[some 5]⟩] 0 0 = 5 := by decide
    have h := wide_positional_mapping.1 [⟨[some 5]⟩] 0 [] 0 (by decide)
    rw [hc] at h
    rw [if_pos (by norm_num : (0 : ℚ) < 5)] at h
    exact h
  · exact wide_positional_mapping.2.1 [⟨[some 5]⟩] 0 [] "XYZ" (by decide)

/-- C6: for every distance `d ≥ 0` the similarity equals
`max(0, min(100, 100·e^(-d/10)))` (and does so in `compareProfiles`),
`similarity(0) = 100`, the similarity is strictly decreasing in the
distance, and it always lies in `[0, 100]`. -/
theorem similarity_formula_contract :
    (∀ p q : CannabinoidProfile,
      (compareProfiles p q).similarity
        = similarityOfDistance (calculateEuclideanDistance p.cannabinoids q.cannabinoids))
    ∧ (∀ d : ℝ, 0 ≤ d →
        similarityOfDistance d = max 0 (min 100 (100 * Real.exp (-d / 10))))
    ∧ similarityOfDistance 0 = 100
    ∧ (∀ d₁ d₂ : ℝ, 0 ≤ d₁ → d₁ < d₂ →
        similarityOfDistance d₂ < similarityOfDistance d₁)
    ∧ (∀ d : ℝ, 0 ≤ d →
        0 ≤ similarityOfDistance d ∧ similarityOfDistance d ≤ 100) := by
  refine ⟨fun p q => rfl, fun d _ => rfl, ?_, ?_, ?_⟩
  · rw [similarityOfDistance_eq_exp 0 le_rfl]
    norm_num
  · intro d₁ d₂ h1 h12
    rw [similarityOfDistance_eq_exp d₁ h1,
      similarityOfDistance_eq_exp d₂ (le_trans h1 (le_of_lt h12))]
    have hexp : Real.exp (-d₂ / 10) < Real.exp (-d₁ / 10) :=
      Real.exp_lt_exp.mpr (by linarith)
    linarith
  · intro d _
    unfold similarityOfDistance
    exact ⟨le_max_left 0 _, max_le (by norm_num) (min_le_left _ _)⟩

/-- Witness for C6 at concrete distances 0, 1 and 2. -/
theorem similarity_formula_contract_witness :
    similarityOfDistance 0 = 100
    ∧ similarityOfDistance 2 < similarityOfDistance 1
    ∧ 0 ≤ similarityOfDistance 1 ∧ similarityOfDistance 1 ≤ 100 :=
  ⟨similarity_formula_contract.2.2.1,
   similarity_formula_contract.2.2.2.1 1 2 (by norm_num) (by norm_num),
   (similarity_formula_contract.2.2.2.2 1 (by norm_num)).1,
   (similarity_formula_contract.2.2.2.2 1 (by norm_num)).2⟩

/-- C7: `findSimilarProfiles` defaults to limit 5 and minimum similarity
50; it returns exactly the candidates with a different `batchId` and
similarity not below the minimum, stable-sorted by similarity descending
(ties keep input order), truncated to at most `limit` entries, with ranks
1, 2, ... in order. -/
theorem similarity_ranking_contract :
    (∀ (t : CannabinoidProfile) (cs : List CannabinoidProfile),
      findSimilarProfilesDefault t cs = findSimilarProfiles t cs 5 50)
    ∧ (∀ (t : CannabinoidProfile) (cs : List CannabinoidProfile) (lim : ℕ) (minS : ℝ),
        findSimilarProfiles t cs lim minS = findSimilarSpec t cs lim minS)
    ∧ (∀ (t : CannabinoidProfile) (cs : List CannabinoidProfile) (lim : ℕ) (minS : ℝ),
        ((findSimilarProfiles t cs lim minS).map SimilarityResult.similarity).Pairwise
          (fun a b => b ≤ a))
    ∧ (∀ (t : CannabinoidProfile) (cs : List CannabinoidProfile) (lim : ℕ) (minS : ℝ),
        (findSimilarProfiles t cs lim minS).length ≤ lim)
    ∧ (∀ (t : CannabinoidProfile) (cs : List CannabinoidProfile) (lim : ℕ) (minS : ℝ),
        (findSimilarProfiles t cs lim minS).map SimilarityResult.rank
          = List.range' 1 (findSimilarProfiles t cs lim minS).length)
    ∧ (∀ (l : List SimEntry) (s : ℝ),
        (sortBySimDesc l).filter (fun r => decide (r.similarity = s))
          = l.filter (fun r => decide (r.similarity = s))) := by
  refine ⟨fun t cs => rfl, findSimilarProfiles_eq_spec, ?_, ?_, ?_,
    sortBySimDesc_filter_simEq⟩
  · intro t cs lim minS
    simp only [findSimilarProfiles]
    rw [assignRanks_map_sim]
    refine List.pairwise_map.mpr ?_
    exact List.Pairwise.sublist (List.take_sublist lim _)
      (sortBySimDesc_pairwise _)
  · intro t cs lim minS
    simp only [findSimilarProfiles]
    rw [assignRanks_length, List.length_take]
    exact min_le_left _ _
  · intro t cs lim minS
    simp only [findSimilarProfiles]
    rw [assignRanks_map_rank, assignRanks_length]

/-- C8: `scoreProfileCompleteness` computes coverage `keys/9·100`, score
`coverage (+20 if keys ≥ 7) (+10 if total > 10)` clamped at 100, and the
four exact coverage-bucketed message strings. -/
theorem completeness_score_contract :
    ∀ p : CannabinoidProfile, scoreProfileCompleteness p = scoreCompletenessSpec p := by
  intro p
  simp only [scoreProfileCompleteness, scoreCompletenessSpec]
  by_cases h1 : 7 ≤ p.cannabinoids.length <;>
    by_cases h2 : 10 < p.totalCannabinoids <;>
      simp [h1, h2]

/-- C9: the tabular parse never throws (it is a total function in this
embedding) and returns profiles [], mode unknown, 0 records processed on
missing input, on input without category columns, and on any input on
which no structural interpretation produced a profile. -/
theorem parse_failure_contract :
    parseDataView none
      = { profiles := [], parseMode := ParseMode.unknown, recordsProcessed := 0 }
    ∧ (∀ d : PowerBICategoricalData,
        d.categories = none ∨ d.categories = some [] →
        parseDataView (some d)
          = { profiles := [], parseMode := ParseMode.unknown, recordsProcessed := 0 })
    ∧ (∀ data : Option PowerBICategoricalData,
        (parseDataView data).profiles = [] →
        parseDataView data
          = { profiles := [], parseMode := ParseMode.unknown, recordsProcessed := 0 }) := by
  refine ⟨rfl, ?_, ?_⟩
  · intro d hd
    rcases hd with h | h <;> simp [parseDataView, h, unknownResult]
  · intro data hemp
    rcases parseDataView_cases data with h | ⟨cats, vals, h, hpos⟩ | ⟨cats, vals, h, hpos⟩
    · exact h
    · rw [h] at hemp
      rw [hemp] at hpos
      simp at hpos
    · rw [h] at hemp
      rw [hemp] at hpos
      simp at hpos

/-- Witness for C9: an input with an empty category list and an input whose
single category column has no rows. -/
theorem parse_failure_contract_witness :
    ((some [] : Option (List PBICategory)) = none
      ∨ (some [] : Option (List PBICategory)) = some [])
    ∧ parseDataView (some { categories := some [], values := none })
        = { profiles := [], parseMode := ParseMode.unknown, recordsProcessed := 0 }
    ∧ (parseDataView (some { categories := some [⟨[]⟩], values := some [] })).profiles = []
    ∧ parseDataView (some { categories := some [⟨[]⟩], values := some [] })
        = { profiles := [], parseMode := ParseMode.unknown, recordsProcessed := 0 } :=
  ⟨Or.inr rfl,
   parse_failure_contract.2.1 { categories := some [], values := none } (Or.inr rfl),
   by decide,
   parse_failure_contract.2.2 (some { categories := some [⟨[]⟩], values := some [] })
     (by decide)⟩

/-- C10: because THC precedes THCA/THCV and CBD precedes CBDA/CBDV in
registry iteration order and the match is a bidirectional substring test,
the acid/varin codes resolve to THC resp. CBD, and long-form rows labelled
with them are stored under the THC resp. CBD key. -/
theorem acid_varin_labels_resolve_to_parent :
    getCannabioidDisplayName "THCA" = "THC"
    ∧ getCannabioidDisplayName "THCV" = "THC"
    ∧ getCannabioidDisplayName "CBDA" = "CBD"
    ∧ getCannabioidDisplayName "CBDV" = "CBD"
    ∧ (parseDataView (some
        { categories := some [⟨["b1"]⟩, ⟨["THCA"]⟩]
          values := some [⟨[some 7]⟩] })).profiles.map
        (fun p => p.cannabinoids) = [[("THC", 7)]]
    ∧ (parseDataView (some
        { categories := some [⟨["b1"]⟩, ⟨["CBDV"]⟩]
          values := some [⟨[some 3]⟩] })).profiles.map
        (fun p => p.cannabinoids) = [[("CBD", 3)]] :=
  ⟨by decide, by decide, by decide, by decide, by decide, by decide⟩
